import Mathlib

/-!
Shallow embedding of three application-layer modules of the repository:

* `extensions/answer_summarizers/models.py` — the answer calculation
  framework (`AnswerFrequencies`, `Top5AnswerFrequencies`,
  `FrequencyCommonlySubmittedElements`);
* `core/domain/email_manager.py` — sender validation, templated sends and
  the transactional send-and-record operation;
* `core/domain/exp_jobs_one_off.py` — the map/reduce maintenance jobs
  (validity audit, schema migration, first-published backfill).

Python strings are modelled as `String` (with `List Char` where character
level reasoning is needed), Python dicts holding the two email-content
fields as a two-field structure, and raised exceptions as explicit error
results.  External collaborators (HTML sanitizer, user/rights services,
datastore, mail service) are modelled as functions carried by an
environment record; effects (mail calls, audit-record writes, error logs)
are returned explicitly.  The source is Python 2, where
`collections.Counter(...).items()` iterates in implementation-defined
hash-table order; the embedding determinizes that order as
first-occurrence order, so results proved about `counterItems` transfer
to the program only insofar as they are independent of the iteration
order (one pair per distinct value with its correct count).  Python's
`sorted(..., key=lambda x: x[1], reverse=True)`, which the language does
specify to be stable, is modelled as a stable insertion sort on the
count component.
-/

/-! ### Answer calculation framework (`answer_summarizers/models.py`) -/

/-- One recorded answer: the `answer_dict` of `answers_list`, of which the
calculations read only the `'answer_value'` entry. -/
structure AnswerRecord (α : Type) where
  answerValue : α
deriving DecidableEq

/-- The `StateAnswers` entity handed to
`calculate_from_state_answers_entity`. -/
structure StateAnswers (α : Type) where
  explorationId : String
  explorationVersion : Nat
  stateName : String
  answersList : List (AnswerRecord α)

/-- `stats_domain.StateAnswersCalcOutput`: the calculation result.  Each
`{'answer': a, 'frequency': n}` dict of `calculation_output` is modelled
as the pair `(a, n)`. -/
structure StateAnswersCalcOutput (α : Type) where
  explorationId : String
  explorationVersion : Nat
  stateName : String
  calculationId : String
  calculationOutput : List (α × Nat)

/-- Distinct values of the remaining list that are not in `seen`, in order
of first occurrence. -/
def firstSeenAux [DecidableEq α] (seen : List α) : List α → List α
  | [] => []
  | a :: as => if a ∈ seen then firstSeenAux seen as else a :: firstSeenAux (a :: seen) as

/-- The distinct values of `l` in order of first occurrence. -/
def firstSeen [DecidableEq α] (l : List α) : List α := firstSeenAux [] l

/-- `collections.Counter(l).items()`: one `(value, multiplicity)` pair per
distinct value.  In the CPython 2 source the iteration order is the
dict's implementation-defined hash-table order; the embedding
determinizes it as first-occurrence order, so only order-independent
consequences (which pairs occur, with which counts) are facts about the
program. -/
def counterItems [DecidableEq α] (l : List α) : List (α × Nat) :=
  (firstSeen l).map (fun a => (a, l.count a))

/-- Insert a pair into a list sorted by descending count, before the first
element whose count is `≤` its own (so ties keep their input order, as
with Python's stable sort). -/
def insertCountDesc (x : α × Nat) : List (α × Nat) → List (α × Nat)
  | [] => [x]
  | y :: ys => if y.2 ≤ x.2 then x :: y :: ys else y :: insertCountDesc x ys

/-- `sorted(pairs, key=lambda x: x[1], reverse=True)`: stable sort by
descending count. -/
def insSortDesc : List (α × Nat) → List (α × Nat)
  | [] => []
  | x :: xs => insertCountDesc x (insSortDesc xs)

/-- `AnswerFrequencies.calculate_from_state_answers_entity`. -/
def answerFrequencies [DecidableEq α] (sa : StateAnswers α) : StateAnswersCalcOutput α :=
  let answerValues := sa.answersList.map (fun d => d.answerValue)
  { explorationId := sa.explorationId
    explorationVersion := sa.explorationVersion
    stateName := sa.stateName
    calculationId := "AnswerFrequencies"
    calculationOutput := counterItems answerValues }

/-- `Top5AnswerFrequencies.calculate_from_state_answers_entity`:
`sorted(Counter(values).items(), key=lambda x: x[1], reverse=True)[:5]`. -/
def top5AnswerFrequencies [DecidableEq α] (sa : StateAnswers α) : StateAnswersCalcOutput α :=
  let answerValues := sa.answersList.map (fun d => d.answerValue)
  { explorationId := sa.explorationId
    explorationVersion := sa.explorationVersion
    stateName := sa.stateName
    calculationId := "Top5AnswerFrequencies"
    calculationOutput := (insSortDesc (counterItems answerValues)).take 5 }

/-- `setstring.replace('[','').replace(']','')`: every `[` and `]`
character is removed. -/
def removeBrackets (s : List Char) : List Char :=
  s.filter (fun c => !(c == '[') && !(c == ']'))

/-- Python `str.split(', ')`: split at each leftmost non-overlapping
occurrence of the two-character separator.  On the empty string the
result is `[""]`, never the empty list. -/
def splitCommaSpace : List Char → List (List Char)
  | [] => [[]]
  | ',' :: ' ' :: rest => [] :: splitCommaSpace rest
  | c :: rest =>
    match splitCommaSpace rest with
    | [] => [[c]]
    | p :: ps => (c :: p) :: ps

/-- `FrequencyCommonlySubmittedElements.calculate_from_state_answers_entity`:
split each stringified set into elements, count element occurrences over
the whole batch, sort by descending count, keep the top 10 when more than
10 distinct elements exist. -/
def frequencyCommonlySubmittedElements (sa : StateAnswers String) :
    StateAnswersCalcOutput String :=
  let answerValues := sa.answersList.map (fun d => d.answerValue)
  let listOfAllElements :=
    (answerValues.map (fun s => (splitCommaSpace (removeBrackets s.toList)).map String.mk)).flatten
  let elementsAsListOfPairs := insSortDesc (counterItems listOfAllElements)
  let topPairs :=
    if elementsAsListOfPairs.length > 10 then elementsAsListOfPairs.take 10
    else elementsAsListOfPairs
  { explorationId := sa.explorationId
    explorationVersion := sa.explorationVersion
    stateName := sa.stateName
    calculationId := "FrequencyCommonlySubmittedElements"
    calculationOutput := topPairs }

/-! ### Email manager (`core/domain/email_manager.py`) -/

/-- The recognized email intents: the keys of `SENDER_VALIDATORS`.  An
intent string outside this set is modelled as `none` at call sites. -/
inductive Intent where
  | signup
  | dailyBatch
  | marketing
  | publicizeExploration
  | unpublishExploration
  | deleteExploration
deriving DecidableEq

/-- The exceptions `email_manager` can raise, one constructor per raise
site: unrecognized intent, invalid sender for intent, admin config
property still at its placeholder default, and the `TypeError` from
applying a %-format string to too few arguments. -/
inductive EmailError where
  | unrecognizedIntent
  | invalidSender
  | configNotSet (configName : String)
  | formatTypeError
deriving DecidableEq

/-- How a send operation terminated: raised an exception, returned `None`
early without sending, or completed the transactional send. -/
inductive SendResult where
  | raised (e : EmailError)
  | returnedNone
  | ok
deriving DecidableEq

/-- One `email_services.send_mail` invocation. -/
structure MailCall where
  senderEmail : String
  recipientEmail : String
  subject : String
  plaintextBody : String
  htmlBody : String
deriving DecidableEq

/-- One `email_models.SentEmailModel.create` audit record. -/
structure SentEmailRecord where
  recipientId : String
  recipientEmail : String
  senderId : String
  senderEmail : String
  intent : Option Intent
  subject : String
  htmlBody : String
deriving DecidableEq

/-- The externally visible effects of a send operation: mail calls, audit
records written, and `logging.error` / `log_new_error` invocations. -/
structure Effects where
  mailCalls : List MailCall
  auditRecords : List SentEmailRecord
  errorLogs : Nat
deriving DecidableEq

def noEffects : Effects := ⟨[], [], 0⟩

/-- An admin-configured email content value: the `{'subject', 'html_body'}`
dict of `EMAIL_CONTENT_SCHEMA`. -/
structure EmailContent where
  subject : String
  htmlBody : String
deriving DecidableEq

def PLACEHOLDER_SUBJECT : String := "THIS IS A PLACEHOLDER."

def PLACEHOLDER_HTML_BODY : String :=
  "THIS IS A <b>PLACEHOLDER</b> AND SHOULD BE REPLACED."

/-- The external collaborators and configured state the email manager
reads: `feconf` constants, config properties, the rights/user services
and the HTML cleaner. -/
structure EmailEnv where
  systemCommitterId : String
  systemEmailAddress : String
  emailSenderName : String
  emailFooter : String
  isAdmin : String → Bool
  isModerator : String → Bool
  emailOfUserId : String → String
  usernameOf : String → String
  htmlClean : String → String
  stripHtmlTags : String → String
  signupEmailContent : EmailContent
  publicizeExplorationEmailContent : EmailContent
  unpublishExplorationEmailContent : EmailContent
  deleteExplorationEmailContent : EmailContent

/-- The `SENDER_VALIDATORS` table: per-intent predicate on the sender id. -/
def senderValidators (env : EmailEnv) : Intent → String → Bool
  | .signup, x => x == env.systemCommitterId
  | .dailyBatch, x => x == env.systemCommitterId
  | .marketing, x => env.isAdmin x
  | .publicizeExploration, x => env.isModerator x
  | .unpublishExploration, x => env.isModerator x
  | .deleteExploration, x => env.isModerator x

/-- `_require_sender_id_is_valid`: raises on an unrecognized intent, and
on a sender failing the per-intent predicate. -/
def requireSenderIdIsValid (env : EmailEnv) (intent : Option Intent)
    (senderId : String) : Except EmailError Unit :=
  match intent with
  | none => .error .unrecognizedIntent
  | some it =>
    if senderValidators env it senderId then .ok () else .error .invalidSender

/-- `_require_sender_id_is_valid` calls `logging.error` before raising in
the invalid-sender branch (and only there). -/
def senderValidationLogs : Except EmailError Unit → Nat
  | .error .invalidSender => 1
  | _ => 0

/-- Python's `%`-formatting of a format string over `%s` conversion
specifiers against a list of arguments: each `%s` consumes one argument;
too few or too many arguments is a `TypeError`, modelled as `none`.
Applying `fmt % arg` to a single non-tuple argument is `pyFormat fmt [arg]`. -/
def pyFormat : List Char → List (List Char) → Option (List Char)
  | [], [] => some []
  | [], _ :: _ => none
  | '%' :: 's' :: rest, a :: args => (pyFormat rest args).map (fun t => a ++ t)
  | '%' :: 's' :: _, [] => none
  | c :: rest, args => (pyFormat rest args).map (fun t => c :: t)

def pyFormatStr (fmt : String) (args : List String) : Option String :=
  (pyFormat fmt.toList (args.map String.toList)).map String.mk

/-- `_send_email`: validate the sender, sanitize the body (aborting with a
logged error, not an exception, when sanitization would change it),
derive the plaintext rendering, then run the mail call and the
audit-record write as one transaction. -/
def sendEmailFn (env : EmailEnv) (recipientId senderId : String)
    (intent : Option Intent) (emailSubject emailHtmlBody : String) :
    SendResult × Effects :=
  match requireSenderIdIsValid env intent senderId with
  | .error e => (.raised e, ⟨[], [], senderValidationLogs (.error e)⟩)
  | .ok () =>
    let recipientEmail := env.emailOfUserId recipientId
    let cleanedHtmlBody := env.htmlClean emailHtmlBody
    if cleanedHtmlBody != emailHtmlBody then
      (.returnedNone, ⟨[], [], 1⟩)
    else
      let rawPlaintextBody :=
        ((cleanedHtmlBody.replace "<br/>" "\n").replace "<br>" "\n").replace
          "</p><p>" "</p>\n<p>"
      let cleanedPlaintextBody := env.stripHtmlTags rawPlaintextBody
      let senderEmail := env.emailSenderName ++ " <" ++ env.systemEmailAddress ++ ">"
      (.ok,
        ⟨[⟨senderEmail, recipientEmail, emailSubject, cleanedPlaintextBody,
            cleanedHtmlBody⟩],
          [⟨recipientId, recipientEmail, senderId, senderEmail, intent,
            emailSubject, cleanedHtmlBody⟩],
          0⟩)

/-- `send_post_signup_email`: if any field of `SIGNUP_EMAIL_CONTENT` still
equals its placeholder default, log an error and return (no exception);
otherwise build the body with a three-placeholder %-format and delegate
to `_send_email` with the system committer as sender and intent
`signup`. -/
def sendPostSignupEmail (env : EmailEnv) (userId : String) : SendResult × Effects :=
  if env.signupEmailContent.subject == PLACEHOLDER_SUBJECT
      || env.signupEmailContent.htmlBody == PLACEHOLDER_HTML_BODY then
    (.returnedNone, ⟨[], [], 1⟩)
  else
    let username := env.usernameOf userId
    let emailSubject := env.signupEmailContent.subject
    match pyFormatStr "Hi %s,<br><br>%s<br><br>%s"
        [username, env.signupEmailContent.htmlBody, env.emailFooter] with
    | none => (.raised .formatTypeError, noEffects)
    | some emailBody =>
      sendEmailFn env userId env.systemCommitterId (some .signup) emailSubject emailBody

/-- `_get_email_config` over `_POST_MODERATOR_ACTION_EMAIL_CONFIGS`: only
the three moderator-action intents are mapped; every other intent raises
`Unrecognized email intent`.  Returns the config value together with the
config property's name (used in the configuration-error message). -/
def getEmailConfig (env : EmailEnv) (intent : Option Intent) :
    Except EmailError (EmailContent × String) :=
  match intent with
  | some .publicizeExploration =>
    .ok (env.publicizeExplorationEmailContent, "publicize_exploration_email_content")
  | some .unpublishExploration =>
    .ok (env.unpublishExplorationEmailContent, "unpublish_exploration_email_content")
  | some .deleteExploration =>
    .ok (env.deleteExplorationEmailContent, "delete_exploration_email_content")
  | _ => .error .unrecognizedIntent

/-- `send_moderator_action_email`: fetch the per-intent config (raising on
an unrecognized intent), raise a configuration error while any field
still equals its placeholder default, then build `full_email_content`.
In the source the parenthesized expression
`('Hi %s,...%s' % recipient_username, email_body, sender_username, footer)`
binds `%` before the tuple comma, so the four-placeholder format string
is applied to the single argument `recipient_username`, which raises a
`TypeError` before `_send_email` is reached. -/
def sendModeratorActionEmail (env : EmailEnv) (senderId recipientId : String)
    (intent : Option Intent) (emailSubject emailBody : String) :
    SendResult × Effects :=
  match getEmailConfig env intent with
  | .error e => (.raised e, noEffects)
  | .ok (emailConfig, configName) =>
    if emailConfig.subject == PLACEHOLDER_SUBJECT
        || emailConfig.htmlBody == PLACEHOLDER_HTML_BODY then
      (.raised (.configNotSet configName), noEffects)
    else
      let recipientUsername := env.usernameOf recipientId
      let _senderUsername := env.usernameOf senderId
      match pyFormatStr "Hi %s,<br><br>%s<br><br>Thanks,<br>%s<br><br>%s"
          [recipientUsername] with
      | none => (.raised .formatTypeError, noEffects)
      | some fullEmailContent =>
        sendEmailFn env recipientId senderId intent emailSubject fullEmailContent

/-! ### Exploration maintenance jobs (`core/domain/exp_jobs_one_off.py`) -/

/-- Modelled from the spec: status constant of the external
`rights_manager` service (publication status of a content item). -/
def ACTIVITY_STATUS_PUBLIC : String := "public"

/-- Modelled from the spec: status constant of the external
`rights_manager` service. -/
def ACTIVITY_STATUS_PRIVATE : String := "private"

/-- Modelled from the spec: activity-type constant of the external
`rights_manager` service. -/
def ACTIVITY_TYPE_EXPLORATION : String := "exploration"

/-- Modelled from the spec: the `feconf.MIGRATION_BOT_USERNAME` committer
identity used by the migration job. -/
def MIGRATION_BOT_USERNAME : String := "migration_bot"

/-- An `ExplorationModel` entity as the jobs read it. -/
structure ExplorationItem where
  id : String
  deleted : Bool
  statesSchemaVersion : Nat
deriving DecidableEq

/-- An `ExplorationRightsSnapshotContentModel` entity: its id, the
`content['status']` field and its creation datetime (opaque, modelled as
an integer). -/
structure SnapshotContentItem where
  id : String
  contentStatus : String
  createdOn : Int
deriving DecidableEq

/-- External collaborators of the jobs: the current states schema version
from `feconf`, structural validation of a loaded exploration
(`strict` flag, exploration id; `some msg` models a raised
`ValidationError`), the rights status lookup, and
`utils.get_time_in_millisecs`. -/
structure JobsEnv where
  currentExplorationStatesSchemaVersion : Nat
  validateExploration : Bool → String → Option String
  rightsStatus : String → String
  getTimeInMillisecs : Int → Int

/-- One `exp_services.update_exploration` invocation made by the
migration job, carrying the migrate-to-latest commit command's versions. -/
structure UpdateExplorationCall where
  committerId : String
  expId : String
  fromVersion : Nat
  toVersion : Nat
deriving DecidableEq

/-- `ExplorationMigrationJobManager.map`: skip deleted entities; skip and
log entities failing non-strict validation; when the stored states schema
version differs from the current one, issue exactly one
`update_exploration` call with a migrate-to-latest command.  Returns the
persisted update calls and the logged error messages. -/
def migrationJobMap (env : JobsEnv) (item : ExplorationItem) :
    List UpdateExplorationCall × List String :=
  if item.deleted then ([], [])
  else
    match env.validateExploration false item.id with
    | some e =>
      ([], ["Exploration " ++ item.id ++ " failed non-strict validation: " ++ e])
    | none =>
      if item.statesSchemaVersion != env.currentExplorationStatesSchemaVersion then
        ([⟨MIGRATION_BOT_USERNAME, item.id, item.statesSchemaVersion,
            env.currentExplorationStatesSchemaVersion⟩], [])
      else ([], [])

/-- Modelled from the spec: `exp_services.update_exploration` applied to a
migrate-to-latest commit command persists the entity with its states
schema version brought to the command's target version (the load routine
performs the schema upgrade and storing persists it). -/
def applyUpdateExplorationCall (item : ExplorationItem)
    (u : UpdateExplorationCall) : ExplorationItem :=
  { item with statesSchemaVersion := u.toVersion }

/-- `ExplorationValidityJobManager.map`: skip deleted entities; validate
leniently when the rights status is private and strictly otherwise; a
raised `ValidationError` is caught and yielded as an
`(id, message)` pair.  The `Except` layer models exceptions escaping the
map step. -/
def validityJobMap (env : JobsEnv) (item : ExplorationItem) :
    Except String (List (String × String)) :=
  if item.deleted then .ok []
  else
    let res :=
      if env.rightsStatus item.id == ACTIVITY_STATUS_PRIVATE then
        env.validateExploration false item.id
      else
        env.validateExploration true item.id
    match res with
    | some e => .ok [(item.id, e)]
    | none => .ok []

/-- Python `str.rfind(c)`: highest index of `c`, or `-1` when absent. -/
def pyRfind (c : Char) : List Char → Int
  | [] => -1
  | a :: as =>
    let r := pyRfind c as
    if r ≥ 0 then r + 1
    else if a == c then 0 else -1

/-- Python slice `s[:i]`, including the negative-index convention. -/
def pySliceTo (s : List Char) (i : Int) : List Char :=
  if i < 0 then s.take (s.length - (-i).toNat) else s.take i.toNat

/-- `snapshot_id[:snapshot_id.rfind('-')]`. -/
def snapshotContentId (s : String) : String :=
  String.mk (pySliceTo s.toList (pyRfind '-' s.toList))

/-- `ExplorationFirstPublishedOneOffJob.map`: for a snapshot whose
`content['status']` is public, emit the pair of the id truncated at its
last `-` and the creation time in milliseconds. -/
def firstPublishedMap (env : JobsEnv) (item : SnapshotContentItem) :
    List (String × Int) :=
  if item.contentStatus == ACTIVITY_STATUS_PUBLIC then
    [(snapshotContentId item.id, env.getTimeInMillisecs item.createdOn)]
  else []

/-- One `rights_manager.update_activity_first_published_msec` invocation. -/
structure UpdateFirstPublishedCall where
  activityType : String
  activityId : String
  firstPublishedMsec : Int
deriving DecidableEq

/-- `ExplorationFirstPublishedOneOffJob.reduce`: the grouped values (the
framework stringifies them; `ast.literal_eval` restores the numbers, so
they are modelled as integers directly) are reduced with `min`; Python's
`min` on an empty list raises, modelled as `none`. -/
def firstPublishedReduce (expId : String) (commitTimesMsecs : List Int) :
    Option UpdateFirstPublishedCall :=
  match commitTimesMsecs with
  | [] => none
  | x :: xs => some ⟨ACTIVITY_TYPE_EXPLORATION, expId, xs.foldl min x⟩

/-! ### Concrete sample environments used for evaluation -/

/-- A concrete email environment in which every configurable email content
is still at its placeholder default and the sanitizer rewrites every body
to the empty string. -/
def placeholderEnv : EmailEnv where
  systemCommitterId := "sys"
  systemEmailAddress := "system@example.com"
  emailSenderName := "Site Admin"
  emailFooter := "footer"
  isAdmin := fun u => u == "adminUser"
  isModerator := fun u => u == "modUser"
  emailOfUserId := fun u => u ++ "@example.com"
  usernameOf := fun u => u
  htmlClean := fun _ => ""
  stripHtmlTags := fun s => s
  signupEmailContent := ⟨PLACEHOLDER_SUBJECT, PLACEHOLDER_HTML_BODY⟩
  publicizeExplorationEmailContent := ⟨PLACEHOLDER_SUBJECT, PLACEHOLDER_HTML_BODY⟩
  unpublishExplorationEmailContent := ⟨PLACEHOLDER_SUBJECT, PLACEHOLDER_HTML_BODY⟩
  deleteExplorationEmailContent := ⟨PLACEHOLDER_SUBJECT, PLACEHOLDER_HTML_BODY⟩

/-- A concrete email environment with every email content configured away
from its placeholder default and an identity sanitizer. -/
def configuredEnv : EmailEnv where
  systemCommitterId := "sys"
  systemEmailAddress := "system@example.com"
  emailSenderName := "Site Admin"
  emailFooter := "footer"
  isAdmin := fun u => u == "adminUser"
  isModerator := fun u => u == "modUser"
  emailOfUserId := fun u => u ++ "@example.com"
  usernameOf := fun u => u
  htmlClean := fun s => s
  stripHtmlTags := fun s => s
  signupEmailContent := ⟨"Welcome!", "Welcome to the site."⟩
  publicizeExplorationEmailContent := ⟨"Publicized", "Your exploration was publicized."⟩
  unpublishExplorationEmailContent := ⟨"Unpublished", "Your exploration was unpublished."⟩
  deleteExplorationEmailContent := ⟨"Deleted", "Your exploration was deleted."⟩

/-- A concrete jobs environment: current schema version 5, one
exploration (`badExp`) failing validation, one private exploration
(`privExp`), and a milliseconds conversion that scales by 1000. -/
def sampleJobsEnv : JobsEnv where
  currentExplorationStatesSchemaVersion := 5
  validateExploration := fun _ expId =>
    if expId == "badExp" then some "states missing" else none
  rightsStatus := fun expId =>
    if expId == "privExp" then ACTIVITY_STATUS_PRIVATE else ACTIVITY_STATUS_PUBLIC
  getTimeInMillisecs := fun t => t * 1000

/-! ### Lemmas about the counting and sorting primitives -/

theorem mem_firstSeenAux [DecidableEq α] (l : List α) :
    ∀ (seen : List α) (a : α), a ∈ firstSeenAux seen l ↔ a ∈ l ∧ a ∉ seen := by
  induction l with
  | nil => simp [firstSeenAux]
  | cons b bs ih =>
    intro seen a
    by_cases hb : b ∈ seen
    · simp only [firstSeenAux, if_pos hb, ih, List.mem_cons]
      constructor
      · rintro ⟨h1, h2⟩
        exact ⟨Or.inr h1, h2⟩
      · rintro ⟨h1 | h1, h2⟩
        · exact absurd (h1 ▸ hb) h2
        · exact ⟨h1, h2⟩
    · simp only [firstSeenAux, if_neg hb, List.mem_cons, ih]
      constructor
      · rintro (rfl | ⟨h1, h2⟩)
        · exact ⟨Or.inl rfl, hb⟩
        · exact ⟨Or.inr h1, fun hs => h2 (Or.inr hs)⟩
      · rintro ⟨h1, h2⟩
        by_cases hab : a = b
        · exact Or.inl hab
        · rcases h1 with h1 | h1
          · exact absurd h1 hab
          · exact Or.inr ⟨h1, fun hs => hs.elim hab h2⟩

theorem nodup_firstSeenAux [DecidableEq α] (l : List α) :
    ∀ seen : List α, (firstSeenAux seen l).Nodup := by
  induction l with
  | nil => intro seen; simp [firstSeenAux]
  | cons b bs ih =>
    intro seen
    by_cases hb : b ∈ seen
    · simpa [firstSeenAux, hb] using ih seen
    · simp only [firstSeenAux, if_neg hb]
      refine List.nodup_cons.2 ⟨fun hmem => ?_, ih (b :: seen)⟩
      exact ((mem_firstSeenAux bs (b :: seen) b).1 hmem).2 (List.mem_cons_self b seen)

theorem nodup_firstSeen [DecidableEq α] (l : List α) : (firstSeen l).Nodup :=
  nodup_firstSeenAux l []

theorem mem_firstSeen [DecidableEq α] (l : List α) (a : α) :
    a ∈ firstSeen l ↔ a ∈ l := by
  simpa [firstSeen] using mem_firstSeenAux l [] a

theorem countP_notMem_split [DecidableEq α] (bs : List α) (b : α)
    (seen : List α) (hb : b ∉ seen) :
    bs.countP (fun x => decide (x ∉ seen))
      = bs.count b + bs.countP (fun x => decide (x ∉ seen) && !(x == b)) := by
  induction bs with
  | nil => simp
  | cons y ys ih =>
    by_cases hyb : y = b
    · subst hyb
      simp only [List.countP_cons, List.count_cons, ih]
      simp [hb]
      omega
    · have hyb' : ¬(b = y) := fun h => hyb h.symm
      simp only [List.countP_cons, List.count_cons, ih]
      by_cases hys : y ∈ seen <;> simp [hys, hyb, hyb'] <;> omega

theorem sum_counts_firstSeenAux [DecidableEq α] (l : List α) :
    ∀ seen : List α,
      ((firstSeenAux seen l).map (fun b => l.count b)).sum
        = l.countP (fun b => decide (b ∉ seen)) := by
  induction l with
  | nil => intro seen; simp [firstSeenAux]
  | cons b bs ih =>
    intro seen
    by_cases hb : b ∈ seen
    · simp only [firstSeenAux, if_pos hb]
      have hcong : ∀ x ∈ firstSeenAux seen bs,
          (b :: bs).count x = bs.count x := by
        intro x hx
        have hxs := (mem_firstSeenAux bs seen x).1 hx
        have hxb : ¬(x = b) := fun h => hxs.2 (h ▸ hb)
        simp [List.count_cons, hxb]
      rw [List.map_congr_left hcong, ih seen]
      simp [List.countP_cons, hb]
    · simp only [firstSeenAux, if_neg hb, List.map_cons, List.sum_cons]
      have hcong : ∀ x ∈ firstSeenAux (b :: seen) bs,
          (b :: bs).count x = bs.count x := by
        intro x hx
        have hxs := (mem_firstSeenAux bs (b :: seen) x).1 hx
        have hxb : ¬(x = b) := fun h => hxs.2 (h ▸ List.mem_cons_self b seen)
        simp [List.count_cons, hxb]
      rw [List.map_congr_left hcong, ih (b :: seen)]
      have hsplit : bs.countP (fun x => decide (x ∉ b :: seen))
          = bs.countP (fun x => decide (x ∉ seen) && !(x == b)) := by
        congr 1
        funext x
        by_cases h1 : x = b <;> by_cases h2 : x ∈ seen <;> simp [h1, h2]
      have hcount : (b :: bs).count b = bs.count b + 1 := by
        simp [List.count_cons]
      have hrhs : (b :: bs).countP (fun x => decide (x ∉ seen))
          = bs.countP (fun x => decide (x ∉ seen)) + 1 := by
        simp [List.countP_cons, hb]
      rw [hsplit, hcount, hrhs, countP_notMem_split bs b seen hb]
      omega

theorem counterItems_map_fst [DecidableEq α] (l : List α) :
    (counterItems l).map Prod.fst = firstSeen l := by
  simp [counterItems, List.map_map, Function.comp_def]

theorem counterItems_sum_snd [DecidableEq α] (l : List α) :
    ((counterItems l).map Prod.snd).sum = l.length := by
  have h := sum_counts_firstSeenAux l []
  have hlen : l.countP (fun b => decide (b ∉ ([] : List α))) = l.length := by
    simp
  rw [hlen] at h
  simpa [counterItems, List.map_map, Function.comp_def, firstSeen] using h

theorem counterItems_snd_eq_count [DecidableEq α] (l : List α) :
    ∀ p ∈ counterItems l, p.2 = l.count p.1 := by
  intro p hp
  simp only [counterItems, List.mem_map] at hp
  rcases hp with ⟨a, _, rfl⟩
  rfl

theorem mem_insertCountDesc (x : α × Nat) (l : List (α × Nat)) (z : α × Nat) :
    z ∈ insertCountDesc x l ↔ z = x ∨ z ∈ l := by
  induction l with
  | nil => simp [insertCountDesc]
  | cons y ys ih =>
    by_cases h : y.2 ≤ x.2 <;> simp [insertCountDesc, h, ih] <;> tauto

theorem pairwise_insertCountDesc (x : α × Nat) (l : List (α × Nat))
    (hl : l.Pairwise (fun p q => q.2 ≤ p.2)) :
    (insertCountDesc x l).Pairwise (fun p q => q.2 ≤ p.2) := by
  induction l with
  | nil => simp [insertCountDesc]
  | cons y ys ih =>
    rcases List.pairwise_cons.1 hl with ⟨hy, hys⟩
    by_cases h : y.2 ≤ x.2
    · simp only [insertCountDesc, if_pos h]
      refine List.pairwise_cons.2 ⟨?_, hl⟩
      intro z hz
      rcases List.mem_cons.1 hz with rfl | hz'
      · exact h
      · exact le_trans (hy z hz') h
    · simp only [insertCountDesc, if_neg h]
      refine List.pairwise_cons.2 ⟨?_, ih hys⟩
      intro z hz
      rcases (mem_insertCountDesc x ys z).1 hz with rfl | hz'
      · exact le_of_not_le h
      · exact hy z hz'

theorem pairwise_insSortDesc (l : List (α × Nat)) :
    (insSortDesc l).Pairwise (fun p q => q.2 ≤ p.2) := by
  induction l with
  | nil => simp [insSortDesc]
  | cons x xs ih => exact pairwise_insertCountDesc x (insSortDesc xs) ih

theorem filter_insertCountDesc (x : α × Nat) (l : List (α × Nat)) (c : Nat) :
    (insertCountDesc x l).filter (fun p => p.2 == c)
      = if x.2 = c then x :: l.filter (fun p => p.2 == c)
        else l.filter (fun p => p.2 == c) := by
  induction l with
  | nil => by_cases h : x.2 = c <;> simp [insertCountDesc, h]
  | cons y ys ih =>
    by_cases h : y.2 ≤ x.2
    · rw [insertCountDesc, if_pos h]
      by_cases hx : x.2 = c <;> simp [hx, List.filter_cons]
    · rw [insertCountDesc, if_neg h]
      by_cases hy : y.2 = c
      · by_cases hx : x.2 = c
        · omega
        · simp [List.filter_cons, hy, hx, ih]
      · by_cases hx : x.2 = c <;> simp [List.filter_cons, hy, hx, ih]

theorem filter_insSortDesc (l : List (α × Nat)) (c : Nat) :
    (insSortDesc l).filter (fun p => p.2 == c) = l.filter (fun p => p.2 == c) := by
  induction l with
  | nil => rfl
  | cons x xs ih =>
    rw [insSortDesc, filter_insertCountDesc, List.filter_cons]
    by_cases hx : x.2 = c <;> simp [hx, ih]

theorem filter_take_isPre (l : List β) (n : Nat) (p : β → Bool) :
    (l.take n).filter p <+: l.filter p := by
  refine ⟨(l.drop n).filter p, ?_⟩
  rw [← List.filter_append, List.take_append_drop]

/-! ### Lemmas about splitting, formatting and folding -/

theorem splitCommaSpace_cons_of_tail (c : Char) (rest : List Char)
    (h : ∀ rest1 : List Char, c = ',' → rest = ' ' :: rest1 → False)
    (p : List Char) (ps : List (List Char))
    (hm : splitCommaSpace rest = p :: ps) :
    splitCommaSpace (c :: rest) = (c :: p) :: ps := by
  conv_lhs => rw [splitCommaSpace.eq_def]
  split
  · rename_i heq2
    exact absurd heq2 (by simp)
  · rename_i rest1 heq2
    injection heq2 with h1 h2
    exact (h rest1 h1 h2).elim
  · rename_i c1 rest1 hne heq2
    injection heq2 with h1 h2
    subst h1
    subst h2
    rw [hm]

theorem one_le_length_splitCommaSpace (s : List Char) :
    1 ≤ (splitCommaSpace s).length := by
  induction s using splitCommaSpace.induct with
  | case1 => simp [splitCommaSpace]
  | case2 rest ih => simp [splitCommaSpace]
  | case3 c rest h hnil ih =>
    rw [hnil] at ih
    simp at ih
  | case4 c rest h p ps hm ih =>
    simp [splitCommaSpace_cons_of_tail c rest h p ps hm]

theorem pyFormat_moderator_template_none (x : String) :
    pyFormatStr "Hi %s,<br><br>%s<br><br>Thanks,<br>%s<br><br>%s" [x] = none := rfl

theorem foldl_min_spec (xs : List Int) : ∀ x : Int,
    (xs.foldl min x = x ∨ xs.foldl min x ∈ xs) ∧
    xs.foldl min x ≤ x ∧ ∀ y ∈ xs, xs.foldl min x ≤ y := by
  induction xs with
  | nil => intro x; simp
  | cons a as ih =>
    intro x
    rcases ih (min x a) with ⟨hmem, hle, hall⟩
    refine ⟨?_, ?_, ?_⟩
    · rcases hmem with h | h
      · rcases min_choice x a with hc | hc
        · rw [List.foldl_cons, h, hc]; left; rfl
        · right; rw [List.foldl_cons, h, hc]; exact List.mem_cons_self a as
      · right; exact List.mem_cons_of_mem a h
    · exact le_trans hle (min_le_left x a)
    · intro y hy
      rcases List.mem_cons.1 hy with rfl | hy'
      · exact le_trans hle (min_le_right x y)
      · exact hall y hy'

theorem sendModeratorActionEmail_effects (env : EmailEnv)
    (senderId recipientId : String) (intent : Option Intent)
    (subj body : String) :
    (sendModeratorActionEmail env senderId recipientId intent subj body).2
      = noEffects := by
  unfold sendModeratorActionEmail
  split
  · rfl
  · split
    · rfl
    · rfl

/-! ### Claim theorems -/

/-- Claim C6: `AnswerFrequencies` returns one (answer, frequency) pair per
distinct answer value, with no truncation, each frequency being that
value's number of occurrences, and the sum of all emitted frequencies
equals the number of answers in the batch. -/
theorem answer_frequencies_total_count :
    ∀ (α : Type) [DecidableEq α] (sa : StateAnswers α),
      (answerFrequencies sa).calculationOutput.map Prod.fst
          = firstSeen (sa.answersList.map (fun d => d.answerValue)) ∧
      ((answerFrequencies sa).calculationOutput.map Prod.fst).Nodup ∧
      (∀ a : α,
        a ∈ (answerFrequencies sa).calculationOutput.map Prod.fst
          ↔ a ∈ sa.answersList.map (fun d => d.answerValue)) ∧
      (∀ p ∈ (answerFrequencies sa).calculationOutput,
        p.2 = (sa.answersList.map (fun d => d.answerValue)).count p.1) ∧
      ((answerFrequencies sa).calculationOutput.map Prod.snd).sum
          = sa.answersList.length := by
  intro α _ sa
  have hout : (answerFrequencies sa).calculationOutput
      = counterItems (sa.answersList.map (fun d => d.answerValue)) := rfl
  rw [hout]
  refine ⟨counterItems_map_fst _, ?_, ?_, counterItems_snd_eq_count _, ?_⟩
  · rw [counterItems_map_fst]
    exact nodup_firstSeen _
  · intro a
    rw [counterItems_map_fst, mem_firstSeen]
  · rw [counterItems_sum_snd, List.length_map]

/-- Claim C6 witness: on the batch `[a,a,b]` the pair `(a,2)` carries the
occurrence count of `a`, and the frequencies sum to the batch size 3. -/
theorem answer_frequencies_total_count_witness :
    (("a", 2) : String × Nat).2
        = ((["a", "a", "b"].map (AnswerRecord.mk (α := String))).map
            (fun d => d.answerValue)).count ("a", 2).1 ∧
    ((answerFrequencies
        (⟨"e", 1, "s", ["a", "a", "b"].map AnswerRecord.mk⟩ :
          StateAnswers String)).calculationOutput.map Prod.snd).sum = 3 := by
  have h := answer_frequencies_total_count String
    ⟨"e", 1, "s", ["a", "a", "b"].map AnswerRecord.mk⟩
  exact ⟨h.2.2.2.1 ("a", 2) (by decide), h.2.2.2.2⟩

/-- Claim C10: in `FrequencyCommonlySubmittedElements`, splitting an
answer string (after removing brackets) never yields an empty list, so
every answer contributes at least one element; the answer `"[]"`
contributes one occurrence of the empty-string element, which is counted
and ranked like any other element. -/
theorem commonly_submitted_elements_empty_set :
    (∀ s : String, 1 ≤ (splitCommaSpace (removeBrackets s.toList)).length) ∧
    (frequencyCommonlySubmittedElements
        ⟨"e", 1, "s", ["[]"].map AnswerRecord.mk⟩).calculationOutput
      = [("", 1)] ∧
    (frequencyCommonlySubmittedElements
        ⟨"e", 1, "s", ["[]", "[]", "[a]"].map AnswerRecord.mk⟩).calculationOutput
      = [("", 2), ("a", 1)] := by
  exact ⟨fun s => one_le_length_splitCommaSpace _, by decide, by decide⟩

/-- Claim C2 counterexample: with the signup content still at its
placeholder default, `send_post_signup_email` does not raise a
configuration error — it logs the error and returns `None` (while making
no mail call), contradicting the claim that the templated send raises. -/
theorem signup_placeholder_send_does_not_raise :
    placeholderEnv.signupEmailContent.subject = PLACEHOLDER_SUBJECT ∧
    (sendPostSignupEmail placeholderEnv "user1").1 = SendResult.returnedNone ∧
    (sendPostSignupEmail placeholderEnv "user1").2.mailCalls = [] := by
  exact ⟨rfl, rfl, rfl⟩

/-- Claim C2 (amended): if any field of the configured content still
equals its placeholder default, the moderator-action send raises a
configuration error, while the signup send logs the configuration error
and returns without raising; in both cases no mail call is made and no
audit record is created. -/
theorem templated_send_placeholder_refusal :
    ∀ (env : EmailEnv) (userId senderId recipientId : String)
      (intent : Option Intent) (subj body : String)
      (cfg : EmailContent) (configName : String),
      ((env.signupEmailContent.subject = PLACEHOLDER_SUBJECT ∨
        env.signupEmailContent.htmlBody = PLACEHOLDER_HTML_BODY) →
        sendPostSignupEmail env userId = (SendResult.returnedNone, ⟨[], [], 1⟩)) ∧
      (getEmailConfig env intent = Except.ok (cfg, configName) →
        (cfg.subject = PLACEHOLDER_SUBJECT ∨ cfg.htmlBody = PLACEHOLDER_HTML_BODY) →
        sendModeratorActionEmail env senderId recipientId intent subj body
          = (SendResult.raised (EmailError.configNotSet configName), noEffects)) := by
  intro env userId senderId recipientId intent subj body cfg configName
  constructor
  · intro h
    have hcond : (env.signupEmailContent.subject == PLACEHOLDER_SUBJECT
        || env.signupEmailContent.htmlBody == PLACEHOLDER_HTML_BODY) = true := by
      rcases h with h | h <;> simp [h]
    simp [sendPostSignupEmail, hcond]
  · intro hcfg h
    have hcond : (cfg.subject == PLACEHOLDER_SUBJECT
        || cfg.htmlBody == PLACEHOLDER_HTML_BODY) = true := by
      rcases h with h | h <;> simp [h]
    simp [sendModeratorActionEmail, hcfg, hcond]

/-- Claim C2 witness: in the all-placeholder environment the signup send
returns `None` with one logged error, and the publicize moderator send
raises the configuration error. -/
theorem templated_send_placeholder_refusal_witness :
    sendPostSignupEmail placeholderEnv "user2"
        = (SendResult.returnedNone, ⟨[], [], 1⟩) ∧
    sendModeratorActionEmail placeholderEnv "mod" "user2"
        (some Intent.publicizeExploration) "subj" "body"
      = (SendResult.raised
          (EmailError.configNotSet "publicize_exploration_email_content"),
         noEffects) := by
  have h := templated_send_placeholder_refusal placeholderEnv "user2" "mod" "user2"
    (some Intent.publicizeExploration) "subj" "body"
    placeholderEnv.publicizeExplorationEmailContent
    "publicize_exploration_email_content"
  exact ⟨h.1 (Or.inl rfl), h.2 rfl (Or.inl rfl)⟩

/-- Claim C3: the per-intent sender predicate is system identity for
signup and daily batch, admin capability for marketing, and moderator
capability for the three moderator actions; a sender satisfying the
predicate passes `_require_sender_id_is_valid` and the send never raises,
while a sender violating it makes `_send_email` raise the invalid-sender
error with no mail call and no audit record. -/
theorem send_email_sender_validation :
    ∀ (env : EmailEnv) (recipientId senderId subj body : String) (it : Intent),
      (senderValidators env .signup senderId = (senderId == env.systemCommitterId) ∧
       senderValidators env .dailyBatch senderId = (senderId == env.systemCommitterId) ∧
       senderValidators env .marketing senderId = env.isAdmin senderId ∧
       senderValidators env .publicizeExploration senderId = env.isModerator senderId ∧
       senderValidators env .unpublishExploration senderId = env.isModerator senderId ∧
       senderValidators env .deleteExploration senderId = env.isModerator senderId) ∧
      (senderValidators env it senderId = true →
        requireSenderIdIsValid env (some it) senderId = Except.ok () ∧
        ∀ e : EmailError,
          (sendEmailFn env recipientId senderId (some it) subj body).1
            ≠ SendResult.raised e) ∧
      (senderValidators env it senderId = false →
        (sendEmailFn env recipientId senderId (some it) subj body).1
            = SendResult.raised EmailError.invalidSender ∧
        (sendEmailFn env recipientId senderId (some it) subj body).2.mailCalls = [] ∧
        (sendEmailFn env recipientId senderId (some it) subj body).2.auditRecords
            = []) := by
  intro env recipientId senderId subj body it
  refine ⟨⟨rfl, rfl, rfl, rfl, rfl, rfl⟩, ?_, ?_⟩
  · intro hv
    have hreq : requireSenderIdIsValid env (some it) senderId = Except.ok () := by
      simp [requireSenderIdIsValid, hv]
    refine ⟨hreq, ?_⟩
    intro e
    simp only [sendEmailFn, hreq]
    split <;> simp
  · intro hv
    have hreq : requireSenderIdIsValid env (some it) senderId
        = Except.error EmailError.invalidSender := by
      simp [requireSenderIdIsValid, hv]
    simp [sendEmailFn, hreq, senderValidationLogs]

/-- Claim C3 witness: with the system committer `sys`, the signup intent
accepts `sys` and `_send_email` raises the invalid-sender error for the
sender `other`. -/
theorem send_email_sender_validation_witness :
    requireSenderIdIsValid configuredEnv (some Intent.signup) "sys" = Except.ok () ∧
    (sendEmailFn configuredEnv "u" "other" (some Intent.signup) "s" "b").1
      = SendResult.raised EmailError.invalidSender := by
  have h1 := send_email_sender_validation configuredEnv "u" "sys" "s" "b" Intent.signup
  have h2 := send_email_sender_validation configuredEnv "u" "other" "s" "b" Intent.signup
  exact ⟨(h1.2.1 rfl).1, (h2.2.2 rfl).1⟩

/-- Claim C4: on valid input, if the HTML sanitizer would alter the email
body, `_send_email` aborts without raising: the result is the logged
early `None` return with no mail call and no audit record. -/
theorem send_email_sanitizer_abort :
    ∀ (env : EmailEnv) (recipientId senderId : String) (intent : Option Intent)
      (subj body : String),
      requireSenderIdIsValid env intent senderId = Except.ok () →
      env.htmlClean body ≠ body →
      sendEmailFn env recipientId senderId intent subj body
        = (SendResult.returnedNone, ⟨[], [], 1⟩) := by
  intro env recipientId senderId intent subj body hreq hclean
  have hbne : (env.htmlClean body != body) = true := by
    simp [hclean]
  simp [sendEmailFn, hreq, hbne]

/-- Claim C4 witness: in the environment whose sanitizer rewrites every
body to the empty string, a valid signup-intent send of body `x` returns
`None` with one logged error and no effects. -/
theorem send_email_sanitizer_abort_witness :
    sendEmailFn placeholderEnv "u" "sys" (some Intent.signup) "s" "x"
      = (SendResult.returnedNone, ⟨[], [], 1⟩) :=
  send_email_sanitizer_abort placeholderEnv "u" "sys" (some Intent.signup) "s" "x"
    rfl (by decide)

/-- Claim C5: whenever the placeholder-default check of
`send_moderator_action_email` passes, building `full_email_content`
raises the %-format `TypeError` (four placeholders applied to the single
argument `recipient_username`) before `_send_email` is reached; on every
input to this operation no mail call is made and no audit record is
created. -/
theorem moderator_action_email_format_bug :
    ∀ (env : EmailEnv) (senderId recipientId : String) (intent : Option Intent)
      (subj body : String) (cfg : EmailContent) (configName : String),
      (getEmailConfig env intent = Except.ok (cfg, configName) →
        cfg.subject ≠ PLACEHOLDER_SUBJECT →
        cfg.htmlBody ≠ PLACEHOLDER_HTML_BODY →
        (sendModeratorActionEmail env senderId recipientId intent subj body).1
          = SendResult.raised EmailError.formatTypeError) ∧
      (sendModeratorActionEmail env senderId recipientId intent subj body).2.mailCalls
          = [] ∧
      (sendModeratorActionEmail env senderId recipientId intent subj body).2.auditRecords
          = [] := by
  intro env senderId recipientId intent subj body cfg configName
  refine ⟨?_, ?_, ?_⟩
  · intro hcfg h1 h2
    have hcond : (cfg.subject == PLACEHOLDER_SUBJECT
        || cfg.htmlBody == PLACEHOLDER_HTML_BODY) = false := by
      simp [h1, h2]
    simp [sendModeratorActionEmail, hcfg, hcond, pyFormat_moderator_template_none]
  · rw [sendModeratorActionEmail_effects]
    rfl
  · rw [sendModeratorActionEmail_effects]
    rfl

/-- Claim C5 witness: in the fully configured environment the publicize
moderator send raises the %-format `TypeError` and makes no mail call. -/
theorem moderator_action_email_format_bug_witness :
    (sendModeratorActionEmail configuredEnv "mod" "u"
        (some Intent.publicizeExploration) "s" "b").1
      = SendResult.raised EmailError.formatTypeError ∧
    (sendModeratorActionEmail configuredEnv "mod" "u"
        (some Intent.publicizeExploration) "s" "b").2.mailCalls = [] := by
  have h := moderator_action_email_format_bug configuredEnv "mod" "u"
    (some Intent.publicizeExploration) "s" "b"
    configuredEnv.publicizeExplorationEmailContent
    "publicize_exploration_email_content"
  exact ⟨h.1 rfl (by decide) (by decide), h.2.1⟩

/-- Claim C7: in the migration job's map step, a non-deleted entity that
passes baseline validation is left unwritten when its states schema
version equals the current version, and triggers exactly one persisted
update whose resulting version equals the current version when its
version is older; entities failing baseline validation are skipped and
logged without being written. -/
theorem migration_job_map_writes :
    ∀ (env : JobsEnv) (item : ExplorationItem),
      (item.deleted = false →
        env.validateExploration false item.id = none →
        ((item.statesSchemaVersion = env.currentExplorationStatesSchemaVersion →
            migrationJobMap env item = ([], [])) ∧
         (item.statesSchemaVersion < env.currentExplorationStatesSchemaVersion →
            migrationJobMap env item
              = ([⟨MIGRATION_BOT_USERNAME, item.id, item.statesSchemaVersion,
                    env.currentExplorationStatesSchemaVersion⟩], []) ∧
            ∀ u ∈ (migrationJobMap env item).1,
              (applyUpdateExplorationCall item u).statesSchemaVersion
                = env.currentExplorationStatesSchemaVersion))) ∧
      (item.deleted = false →
        ∀ e : String, env.validateExploration false item.id = some e →
          (migrationJobMap env item).1 = [] ∧
          (migrationJobMap env item).2
            = ["Exploration " ++ item.id
                ++ " failed non-strict validation: " ++ e]) := by
  intro env item
  constructor
  · intro hdel hval
    constructor
    · intro heq
      simp [migrationJobMap, hdel, hval, heq]
    · intro hlt
      have hne : (item.statesSchemaVersion
          != env.currentExplorationStatesSchemaVersion) = true := by
        simp
        omega
      constructor
      · simp [migrationJobMap, hdel, hval, hne]
      · intro u hu
        simp only [migrationJobMap, hdel, hval, hne] at hu
        simp at hu
        rw [hu]
        rfl
  · intro hdel e hval
    simp [migrationJobMap, hdel, hval]

/-- Claim C7 witness: under the sample jobs environment, an up-to-date
entity is untouched, an older entity gets exactly the one migrate-to-
latest update, and an entity failing validation is only logged. -/
theorem migration_job_map_writes_witness :
    migrationJobMap sampleJobsEnv ⟨"okExp", false, 5⟩ = ([], []) ∧
    migrationJobMap sampleJobsEnv ⟨"oldExp", false, 3⟩
      = ([⟨MIGRATION_BOT_USERNAME, "oldExp", 3, 5⟩], []) ∧
    (migrationJobMap sampleJobsEnv ⟨"badExp", false, 3⟩).1 = [] := by
  have h1 := migration_job_map_writes sampleJobsEnv ⟨"okExp", false, 5⟩
  have h2 := migration_job_map_writes sampleJobsEnv ⟨"oldExp", false, 3⟩
  have h3 := migration_job_map_writes sampleJobsEnv ⟨"badExp", false, 3⟩
  exact ⟨(h1.1 rfl rfl).1 rfl, ((h2.1 rfl rfl).2 (by decide)).1,
    (h3.2 rfl "states missing" rfl).1⟩

/-- Claim C8: the validation audit job's map step never raises: it skips
deleted entities, validates leniently for private entities and strictly
otherwise, yields the `(id, message)` pair when validation fails, and
yields nothing when validation succeeds. -/
theorem validity_job_map_never_raises :
    ∀ (env : JobsEnv) (item : ExplorationItem),
      (∀ msg : String, validityJobMap env item ≠ Except.error msg) ∧
      (item.deleted = true → validityJobMap env item = Except.ok []) ∧
      (item.deleted = false →
        ((env.rightsStatus item.id = ACTIVITY_STATUS_PRIVATE →
           (env.validateExploration false item.id = none →
              validityJobMap env item = Except.ok []) ∧
           (∀ e : String, env.validateExploration false item.id = some e →
              validityJobMap env item = Except.ok [(item.id, e)])) ∧
         (env.rightsStatus item.id ≠ ACTIVITY_STATUS_PRIVATE →
           (env.validateExploration true item.id = none →
              validityJobMap env item = Except.ok []) ∧
           (∀ e : String, env.validateExploration true item.id = some e →
              validityJobMap env item = Except.ok [(item.id, e)])))) := by
  intro env item
  have hok : ∃ l, validityJobMap env item = Except.ok l := by
    by_cases hdel : item.deleted
    · exact ⟨[], by simp [validityJobMap, hdel]⟩
    · by_cases hpriv : env.rightsStatus item.id = ACTIVITY_STATUS_PRIVATE
      · cases hv : env.validateExploration false item.id with
        | none => exact ⟨[], by simp [validityJobMap, hdel, hpriv, hv]⟩
        | some e => exact ⟨[(item.id, e)], by simp [validityJobMap, hdel, hpriv, hv]⟩
      · cases hv : env.validateExploration true item.id with
        | none => exact ⟨[], by simp [validityJobMap, hdel, hpriv, hv]⟩
        | some e => exact ⟨[(item.id, e)], by simp [validityJobMap, hdel, hpriv, hv]⟩
  refine ⟨?_, ?_, ?_⟩
  · intro msg hcontra
    rcases hok with ⟨l, hl⟩
    rw [hl] at hcontra
    simp at hcontra
  · intro hdel
    simp [validityJobMap, hdel]
  · intro hdel
    constructor
    · intro hpriv
      constructor
      · intro hv
        simp [validityJobMap, hdel, hpriv, hv]
      · intro e hv
        simp [validityJobMap, hdel, hpriv, hv]
    · intro hpriv
      constructor
      · intro hv
        simp [validityJobMap, hdel, hpriv, hv]
      · intro e hv
        simp [validityJobMap, hdel, hpriv, hv]

/-- Claim C8 witness: under the sample jobs environment, the private
valid entity yields nothing and the failing public entity yields exactly
its `(id, message)` pair, both as non-raising results. -/
theorem validity_job_map_never_raises_witness :
    validityJobMap sampleJobsEnv ⟨"privExp", false, 5⟩ = Except.ok [] ∧
    validityJobMap sampleJobsEnv ⟨"badExp", false, 5⟩
      = Except.ok [("badExp", "states missing")] := by
  have h1 := validity_job_map_never_raises sampleJobsEnv ⟨"privExp", false, 5⟩
  have h2 := validity_job_map_never_raises sampleJobsEnv ⟨"badExp", false, 5⟩
  exact ⟨((h1.2.2 rfl).1 rfl).1 rfl, ((h2.2.2 rfl).2 (by decide)).2 "states missing" rfl⟩

/-- Claim C9: the first-published backfill map step emits the
`(contentId, timestampMillis)` pair exactly for snapshot entries whose
status is public, and the reduce step persists the minimum of all
emitted timestamps for each content id (raising on an empty group, which
the framework never passes). -/
theorem first_published_map_reduce_spec :
    ∀ (env : JobsEnv) (item : SnapshotContentItem) (expId : String)
      (x : Int) (xs : List Int),
      (item.contentStatus = ACTIVITY_STATUS_PUBLIC →
        firstPublishedMap env item
          = [(snapshotContentId item.id, env.getTimeInMillisecs item.createdOn)]) ∧
      (item.contentStatus ≠ ACTIVITY_STATUS_PUBLIC →
        firstPublishedMap env item = []) ∧
      firstPublishedReduce expId [] = none ∧
      (firstPublishedReduce expId (x :: xs)
          = some ⟨ACTIVITY_TYPE_EXPLORATION, expId, xs.foldl min x⟩ ∧
        xs.foldl min x ∈ x :: xs ∧
        ∀ y ∈ x :: xs, xs.foldl min x ≤ y) := by
  intro env item expId x xs
  refine ⟨?_, ?_, rfl, rfl, ?_, ?_⟩
  · intro h
    simp [firstPublishedMap, h]
  · intro h
    simp [firstPublishedMap, h]
  · rcases (foldl_min_spec xs x).1 with h | h
    · rw [h]
      exact List.mem_cons_self x xs
    · exact List.mem_cons_of_mem x h
  · intro y hy
    rcases List.mem_cons.1 hy with rfl | hy'
    · exact (foldl_min_spec xs y).2.1
    · exact (foldl_min_spec xs x).2.2 y hy'

/-- Claim C9 witness: a public snapshot `exp1-3` emits
`("exp1", 7000)`, a private one emits nothing, and reducing
`[7000, 5000, 9000]` persists the minimum `5000`. -/
theorem first_published_map_reduce_spec_witness :
    firstPublishedMap sampleJobsEnv ⟨"exp1-3", "public", 7⟩ = [("exp1", 7000)] ∧
    firstPublishedMap sampleJobsEnv ⟨"exp1-4", "private", 9⟩ = [] ∧
    firstPublishedReduce "exp1" [7000, 5000, 9000]
      = some ⟨ACTIVITY_TYPE_EXPLORATION, "exp1", 5000⟩ := by
  have h1 := first_published_map_reduce_spec sampleJobsEnv
    ⟨"exp1-3", "public", 7⟩ "exp1" 7000 [5000, 9000]
  have h2 := first_published_map_reduce_spec sampleJobsEnv
    ⟨"exp1-4", "private", 9⟩ "exp1" 7000 [5000, 9000]
  refine ⟨?_, h2.2.1 (by decide), ?_⟩
  · rw [h1.1 rfl]
    decide
  · rw [h1.2.2.2.1]
    decide
